import Mathlib

/-!
Verification of the mipmap-generation Vulkan demo (`src/main.cpp`).

The development shallowly embeds the algorithmic core of the program:

* the image-layout vocabulary and the per-level barrier/blit trace emitted by
  `generateMipmaps` (main.cpp lines 709-803);
* the closed table of supported layout transitions in `transitionImageLayout`
  (lines 553-613);
* the per-frame fence protocol of `draw` (lines 1690-1757) and the
  sync-object initialisation (lines 1625-1663), as a step relation;
* the branch structure of `draw` on acquisition/presentation results, as a
  pure function over an environment of driver results;
* `findMemoryType` (lines 416-427), `selectSwapExtent` (lines 1155-1179),
  the minimised-window poll loop of `recreateSwapChain` (lines 1775-1782),
  the staging-buffer size computation of `createTextureImage` (lines 805-857)
  and its mip-level-count computation (lines 100, 808).

Machine integers are mapped to `Nat` (all quantities involved are
non-negative and no computation here can overflow `uint32_t`/`VkDeviceSize`
for representable image sizes); fallible paths (C++ `throw`) are mapped to
`Except`; GPU/driver results are environment parameters.
-/

/-- Image layouts appearing in `main.cpp` (a subset of `VkImageLayout`). -/
inductive ImageLayout
  | undefined
  | transferDstOptimal
  | transferSrcOptimal
  | shaderReadOnlyOptimal
  | colorAttachmentOptimal
  | depthStencilAttachmentOptimal
  | presentSrc
  deriving DecidableEq, Repr

/-- Commands recorded into the single-time command buffer by
`generateMipmaps`: pipeline barriers (which change the layout of one mip
level) and blits (which read one level and write another).  Extents are
`(width, height)` pairs. -/
inductive MipCommand
  | barrier (baseMipLevel : Nat) (oldLayout newLayout : ImageLayout)
  | blit (srcLevel : Nat) (srcExtent : Nat × Nat) (dstLevel : Nat) (dstExtent : Nat × Nat)
  deriving DecidableEq, Repr

/-- One halving step of the loop footer of `generateMipmaps`
(`if (mipWidth > 1) mipWidth /= 2;`, main.cpp lines 784-785). -/
def halve (x : Nat) : Nat :=
  if 1 < x then x / 2 else x

/-- Iterated `halve`: the value of `mipWidth`/`mipHeight` after `k` loop
iterations starting from `x`. -/
def halveIter : Nat → Nat → Nat
  | 0, x => x
  | k + 1, x => halveIter k (halve x)

/-- The loop body of `generateMipmaps` (main.cpp lines 733-786) for
`remaining` further iterations, with `i` the current mip level and
`mipWidth`/`mipHeight` the current source extent.  Each iteration emits the
barrier taking level `i - 1` to transfer-source layout, the blit from level
`i - 1` into level `i` (destination extent `mipWidth > 1 ? mipWidth / 2 : 1`
by `mipHeight > 1 ? mipHeight / 2 : 1`, lines 748-761), and the barrier
taking level `i - 1` to shader-read-only layout. -/
def generateMipmapsLoop : Nat → Nat → Nat → Nat → List MipCommand
  | _, 0, _, _ => []
  | i, remaining + 1, mipWidth, mipHeight =>
    MipCommand.barrier (i - 1) ImageLayout.transferDstOptimal ImageLayout.transferSrcOptimal
      :: MipCommand.blit (i - 1) (mipWidth, mipHeight) i
           (if 1 < mipWidth then mipWidth / 2 else 1, if 1 < mipHeight then mipHeight / 2 else 1)
      :: MipCommand.barrier (i - 1) ImageLayout.transferSrcOptimal ImageLayout.shaderReadOnlyOptimal
      :: generateMipmapsLoop (i + 1) remaining (halve mipWidth) (halve mipHeight)

/-- The command trace of `generateMipmaps(image, format, texWidth, texHeight,
mipLevels)` (main.cpp lines 709-803): the loop runs for
`i = 1 .. mipLevels - 1` starting from the full extent, and afterwards the
last level `mipLevels - 1` is transitioned from transfer-destination
directly to shader-read-only (lines 788-800). -/
def generateMipmaps (texWidth texHeight mipLevels : Nat) : List MipCommand :=
  generateMipmapsLoop 1 (mipLevels - 1) texWidth texHeight
    ++ [MipCommand.barrier (mipLevels - 1)
          ImageLayout.transferDstOptimal ImageLayout.shaderReadOnlyOptimal]

/-- Effect of one recorded command on the per-level layout map.  A barrier
with `baseMipLevel = lvl` and `levelCount = 1` (as in the loop) rewrites the
layout of level `lvl`; a blit does not change layouts. -/
def applyCommand (layouts : Nat → ImageLayout) : MipCommand → Nat → ImageLayout
  | MipCommand.barrier lvl _ newLayout =>
      fun j => if j = lvl then newLayout else layouts j
  | MipCommand.blit _ _ _ _ => layouts

/-- Effect of a command sequence on the per-level layout map. -/
def applyCommands (cmds : List MipCommand) (layouts : Nat → ImageLayout) : Nat → ImageLayout :=
  cmds.foldl applyCommand layouts

/-- Errors thrown by the embedded operations of `main.cpp`. -/
inductive TransitionError
  | unsupportedTransition
  deriving DecidableEq, Repr

/-- Value of `VK_ACCESS_TRANSFER_WRITE_BIT`. -/
def VK_ACCESS_TRANSFER_WRITE_BIT : Nat := 4096

/-- Value of `VK_ACCESS_TRANSFER_READ_BIT`. -/
def VK_ACCESS_TRANSFER_READ_BIT : Nat := 2048

/-- Value of `VK_ACCESS_SHADER_READ_BIT`. -/
def VK_ACCESS_SHADER_READ_BIT : Nat := 32

/-- Value of `VK_PIPELINE_STAGE_TOP_OF_PIPE_BIT`. -/
def VK_PIPELINE_STAGE_TOP_OF_PIPE_BIT : Nat := 1

/-- Value of `VK_PIPELINE_STAGE_TRANSFER_BIT`. -/
def VK_PIPELINE_STAGE_TRANSFER_BIT : Nat := 4096

/-- Value of `VK_PIPELINE_STAGE_FRAGMENT_SHADER_BIT`. -/
def VK_PIPELINE_STAGE_FRAGMENT_SHADER_BIT : Nat := 128

/-- The access-mask table of `transitionImageLayout` (main.cpp lines
556-570): defined exactly for the pairs (undefined, transfer-destination)
and (transfer-destination, shader-read-only); every other pair throws. -/
def transitionAccessMasks (oldLayout newLayout : ImageLayout) :
    Except TransitionError (Nat × Nat) :=
  if oldLayout = ImageLayout.undefined ∧ newLayout = ImageLayout.transferDstOptimal then
    Except.ok (0, VK_ACCESS_TRANSFER_WRITE_BIT)
  else if oldLayout = ImageLayout.transferDstOptimal
      ∧ newLayout = ImageLayout.shaderReadOnlyOptimal then
    Except.ok (VK_ACCESS_TRANSFER_WRITE_BIT, VK_ACCESS_SHADER_READ_BIT)
  else
    Except.error TransitionError.unsupportedTransition

/-- The pipeline-stage table of `transitionImageLayout` (main.cpp lines
571-585), keyed by the same two recognized pairs. -/
def transitionPipelineStages (oldLayout newLayout : ImageLayout) :
    Except TransitionError (Nat × Nat) :=
  if oldLayout = ImageLayout.undefined ∧ newLayout = ImageLayout.transferDstOptimal then
    Except.ok (VK_PIPELINE_STAGE_TOP_OF_PIPE_BIT, VK_PIPELINE_STAGE_TRANSFER_BIT)
  else if oldLayout = ImageLayout.transferDstOptimal
      ∧ newLayout = ImageLayout.shaderReadOnlyOptimal then
    Except.ok (VK_PIPELINE_STAGE_TRANSFER_BIT, VK_PIPELINE_STAGE_FRAGMENT_SHADER_BIT)
  else
    Except.error TransitionError.unsupportedTransition

/-- The single pipeline barrier emitted by a successful
`transitionImageLayout` call (main.cpp lines 587-610). -/
structure BarrierInfo where
  srcAccessMask : Nat
  dstAccessMask : Nat
  sourceStage : Nat
  destinationStage : Nat
  oldLayout : ImageLayout
  newLayout : ImageLayout
  baseMipLevel : Nat
  levelCount : Nat
  deriving DecidableEq, Repr

/-- `transitionImageLayout(image, format, oldLayout, newLayout, mipLevels)`
(main.cpp lines 553-613): look up access masks and pipeline stages for the
pair `(oldLayout, newLayout)` and emit one barrier covering levels
`0 .. mipLevels - 1`; if either lookup fails the C++ code throws
`std::invalid_argument` before any barrier is recorded. -/
def transitionImageLayout (oldLayout newLayout : ImageLayout) (mipLevels : Nat) :
    Except TransitionError BarrierInfo :=
  match transitionAccessMasks oldLayout newLayout with
  | Except.error e => Except.error e
  | Except.ok (srcAccessMask, dstAccessMask) =>
    match transitionPipelineStages oldLayout newLayout with
    | Except.error e => Except.error e
    | Except.ok (sourceStage, destinationStage) =>
      Except.ok {
        srcAccessMask := srcAccessMask
        dstAccessMask := dstAccessMask
        sourceStage := sourceStage
        destinationStage := destinationStage
        oldLayout := oldLayout
        newLayout := newLayout
        baseMipLevel := 0
        levelCount := mipLevels }

/-- Whether the two recognized layout pairs of `transitionImageLayout`
contain `(oldLayout, newLayout)`. -/
def supportedTransitionPair (oldLayout newLayout : ImageLayout) : Prop :=
  (oldLayout = ImageLayout.undefined ∧ newLayout = ImageLayout.transferDstOptimal)
    ∨ (oldLayout = ImageLayout.transferDstOptimal
        ∧ newLayout = ImageLayout.shaderReadOnlyOptimal)

instance (oldLayout newLayout : ImageLayout) :
    Decidable (supportedTransitionPair oldLayout newLayout) := by
  unfold supportedTransitionPair
  infer_instance

/-- Errors thrown by `findMemoryType` (main.cpp line 426). -/
inductive MemoryError
  | noSuitableMemoryType
  deriving DecidableEq, Repr

/-- The acceptance test of `findMemoryType` (main.cpp line 421) for index
`i` whose memory type has property flags `flags`: bit `i` of `typeFilter`
is set, and `flags` is a superset of the requested `properties`. -/
abbrev memTypeMatch (typeFilter properties flags i : Nat) : Prop :=
  typeFilter &&& (1 <<< i) ≠ 0 ∧ flags &&& properties = properties

/-- The scan loop of `findMemoryType` (main.cpp lines 420-424) over the
remaining memory-type property flags, with `i` the index of the head. -/
def findMemoryTypeAux (typeFilter properties : Nat) : List Nat → Nat → Except MemoryError Nat
  | [], _ => Except.error MemoryError.noSuitableMemoryType
  | flags :: rest, i =>
    if memTypeMatch typeFilter properties flags i then Except.ok i
    else findMemoryTypeAux typeFilter properties rest (i + 1)

/-- `findMemoryType(typeFilter, properties)` (main.cpp lines 416-427):
linear scan from index 0 over the device's reported memory types (given
here as the list of their property flags), returning the first matching
index, or throwing when no index matches. -/
def findMemoryType (memoryTypes : List Nat) (typeFilter properties : Nat) :
    Except MemoryError Nat :=
  findMemoryTypeAux typeFilter properties memoryTypes 0

/-- A two-dimensional extent, as `VkExtent2D`. -/
structure Extent2D where
  width : Nat
  height : Nat
  deriving DecidableEq, Repr

/-- The fields of `VkSurfaceCapabilitiesKHR` read by `selectSwapExtent`. -/
structure SurfaceCapabilitiesModel where
  currentExtent : Extent2D
  minImageExtent : Extent2D
  maxImageExtent : Extent2D
  deriving DecidableEq, Repr

/-- The sentinel `std::numeric_limits<uint32_t>::max()` used by
`selectSwapExtent` to detect an undefined surface extent. -/
def UINT32_MAX : Nat := 4294967295

/-- `std::clamp(v, lo, hi)`. -/
def cppClamp (v lo hi : Nat) : Nat :=
  if v < lo then lo else if hi < v then hi else v

/-- `selectSwapExtent(capabilities)` (main.cpp lines 1155-1179): if the
surface reports a defined current extent (width differs from the
`uint32_t` sentinel) use it verbatim, otherwise clamp the window's
framebuffer size componentwise into `[minImageExtent, maxImageExtent]`. -/
def selectSwapExtent (caps : SurfaceCapabilitiesModel) (fbWidth fbHeight : Nat) : Extent2D :=
  if caps.currentExtent.width ≠ UINT32_MAX then
    caps.currentExtent
  else
    { width := cppClamp fbWidth caps.minImageExtent.width caps.maxImageExtent.width
      height := cppClamp fbHeight caps.minImageExtent.height caps.maxImageExtent.height }

/-- The minimised-window poll loop at the head of `recreateSwapChain`
(main.cpp lines 1776-1782).  `sizes k` is the framebuffer size returned by
the `k`-th call to `glfwGetFramebufferSize`; the loop re-polls while either
dimension is zero.  `fuel` bounds the number of polls observed: `none`
means the loop was still blocked after `fuel` polls. -/
def framebufferSizeWaitLoop (sizes : Nat → Nat × Nat) : Nat → Nat → Option (Nat × Nat)
  | 0, _ => none
  | fuel + 1, k =>
    if (sizes k).1 = 0 ∨ (sizes k).2 = 0 then framebufferSizeWaitLoop sizes fuel (k + 1)
    else some (sizes k)

/-- The framebuffer size with which `recreateSwapChain` (main.cpp lines
1775-1791) leaves its poll loop and proceeds to `vkDeviceWaitIdle`,
`cleanupSwapChain` and the rebuild; `none` when it is still blocked in the
loop after `fuel` polls. -/
def recreateSwapChainSize (sizes : Nat → Nat × Nat) (fuel : Nat) : Option (Nat × Nat) :=
  framebufferSizeWaitLoop sizes fuel 0

/-- Result of `vkAcquireNextImageKHR` as branched on in `draw`
(main.cpp lines 1703-1708). -/
inductive AcquireResult
  | success
  | suboptimal
  | outOfDate
  | otherFailure
  deriving DecidableEq, Repr

/-- Result of `vkQueuePresentKHR` as branched on in `draw`
(main.cpp lines 1749-1754). -/
inductive PresentResult
  | success
  | suboptimal
  | outOfDate
  | otherFailure
  deriving DecidableEq, Repr

/-- The driver-supplied inputs of one `draw` call: the acquisition result,
the presentation result, whether `vkQueueSubmit` succeeds, and the engine's
framebuffer-resized flag. -/
structure DrawEnv where
  acquireResult : AcquireResult
  submitSucceeds : Bool
  presentResult : PresentResult
  framebufferResized : Bool
  deriving DecidableEq, Repr

/-- Exceptions thrown by `draw` (main.cpp lines 1707, 1734, 1753). -/
inductive DrawError
  | acquireImageFailed
  | submitFailed
  | presentFailed
  deriving DecidableEq, Repr

/-- Observable effects of one completed `draw` call. `waitedOnFence` is the
unconditional fence wait at the top (line 1691); `fenceReset` is the
`vkResetFences` call (line 1712); `nextFrame` is the value of
`m_currentFrame` when `draw` returns. -/
structure DrawOutcome where
  waitedOnFence : Bool
  recreatedSwapChain : Bool
  fenceReset : Bool
  recordedCommandBuffer : Bool
  submitted : Bool
  presented : Bool
  nextFrame : Nat
  deriving DecidableEq, Repr

/-- `draw()` (main.cpp lines 1690-1757) as a function of the current frame
index, the frames-in-flight count and the driver results.  Path order
follows the source: wait on the in-flight fence; acquire (out-of-date
recreates and returns with everything else skipped, lines 1703-1705; other
failures throw, lines 1706-1708); update the uniform buffer, reset the
fence, re-record the command buffer, submit (failure throws, lines
1732-1735); present, then recreate if the present result is out-of-date or
suboptimal or the resize flag is set (lines 1749-1751), else throw on a
non-success present result (lines 1752-1754); finally advance the frame
counter modulo the frames-in-flight count (line 1756). -/
def draw (currentFrame maxFramesInFlight : Nat) (env : DrawEnv) :
    Except DrawError DrawOutcome :=
  if env.acquireResult = AcquireResult.outOfDate then
    Except.ok {
      waitedOnFence := true
      recreatedSwapChain := true
      fenceReset := false
      recordedCommandBuffer := false
      submitted := false
      presented := false
      nextFrame := currentFrame }
  else if env.acquireResult ≠ AcquireResult.success
      ∧ env.acquireResult ≠ AcquireResult.suboptimal then
    Except.error DrawError.acquireImageFailed
  else if env.submitSucceeds = false then
    Except.error DrawError.submitFailed
  else if env.presentResult = PresentResult.outOfDate
      ∨ env.presentResult = PresentResult.suboptimal
      ∨ env.framebufferResized = true then
    Except.ok {
      waitedOnFence := true
      recreatedSwapChain := true
      fenceReset := true
      recordedCommandBuffer := true
      submitted := true
      presented := true
      nextFrame := (currentFrame + 1) % maxFramesInFlight }
  else if env.presentResult ≠ PresentResult.success then
    Except.error DrawError.presentFailed
  else
    Except.ok {
      waitedOnFence := true
      recreatedSwapChain := false
      fenceReset := true
      recordedCommandBuffer := true
      submitted := true
      presented := true
      nextFrame := (currentFrame + 1) % maxFramesInFlight }

/-- Abstract state of the frame synchronizer: `current` is
`m_currentFrame`, and `inflight` lists the frame slots whose in-flight
fence is currently unsignaled, i.e. whose submitted command buffer the GPU
has not yet retired. -/
structure FrameState where
  current : Nat
  inflight : List Nat
  deriving DecidableEq, Repr

/-- Transitions of the frame synchronizer with `N` frames in flight.

`submitFrame` is one successful `draw` call (main.cpp lines 1690-1757): the
`vkWaitForFences` call at line 1691 blocks until slot `current`'s fence is
signaled, so the step is only enabled when `current ∉ inflight`; the call
then resets the fence and submits work signaling it (line 1732), making the
slot un-retired, and advances the frame counter modulo `N` (line 1756).

`abandonFrame` is a `draw` call that returns early on an out-of-date
acquisition (lines 1703-1705): the fence wait still happened, nothing was
submitted and the counter did not advance.

`retire` is the GPU completing the work of one outstanding submission,
signaling the slot's fence.  Fences are created signaled
(`VK_FENCE_CREATE_SIGNALED_BIT`, line 1636 in `createRenderingSyncObjects`),
so the initial state has every slot retired. -/
inductive FrameStep (N : Nat) : FrameState → FrameState → Prop
  | submitFrame (s : FrameState) (h : s.current ∉ s.inflight) :
      FrameStep N s { current := (s.current + 1) % N, inflight := s.current :: s.inflight }
  | abandonFrame (s : FrameState) (h : s.current ∉ s.inflight) :
      FrameStep N s s
  | retire (s : FrameState) (f : Nat) (h : f ∈ s.inflight) :
      FrameStep N s { current := s.current, inflight := s.inflight.erase f }

/-- States reachable from the post-`createRenderingSyncObjects` initial
state (frame counter `0`, all fences signaled, nothing in flight). -/
inductive ReachableFrameState (N : Nat) : FrameState → Prop
  | init : ReachableFrameState N { current := 0, inflight := [] }
  | step {s t : FrameState} :
      ReachableFrameState N s → FrameStep N s t → ReachableFrameState N t

/-- The staging-buffer byte size computed by `createTextureImage`
(main.cpp lines 809-810): `depth = channels + 1` and
`imageSize = width * height * depth`. -/
def createTextureImageStagingSize (width height channels : Nat) : Nat :=
  width * height * (channels + 1)

/-- The mip-level count computed by `createTextureImage` (main.cpp line
808, identically at line 100 in `StbTextureLoader::load`):
`floor(log2(max(width, height))) + 1`.  The C++ computes the logarithm in
double precision; for integer dimensions representable as image sizes the
floor of the double-precision `log2` coincides with `Nat.log2`. -/
def mipLevelsForTexture (width height : Nat) : Nat :=
  Nat.log2 (max width height) + 1

/-- Sample driver environment: suboptimal acquisition followed by a clean
present with no resize flag. -/
def sampleEnvSuboptimal : DrawEnv :=
  { acquireResult := AcquireResult.suboptimal
    submitSucceeds := true
    presentResult := PresentResult.success
    framebufferResized := false }

/-- Sample driver environment: out-of-date acquisition. -/
def sampleEnvOutOfDate : DrawEnv :=
  { acquireResult := AcquireResult.outOfDate
    submitSucceeds := true
    presentResult := PresentResult.success
    framebufferResized := false }

/-- Sample surface capabilities reporting the undefined-extent sentinel. -/
def sampleCapsSentinel : SurfaceCapabilitiesModel :=
  { currentExtent := { width := UINT32_MAX, height := 300 }
    minImageExtent := { width := 100, height := 100 }
    maxImageExtent := { width := 200, height := 200 } }

/-- Sample framebuffer-size poll trace: zero while minimised for the first
two polls, then 640 by 480. -/
def sampleSizes : Nat → Nat × Nat :=
  fun k => if k < 2 then (0, 0) else (640, 480)

/-- C3: `transitionImageLayout` succeeds exactly for the two recognized
layout pairs (undefined to transfer-destination, transfer-destination to
shader-read-only); for every other pair it throws
`UnsupportedTransitionError`, and in that case no barrier is produced (the
result carries no `BarrierInfo`). -/
theorem transitionImageLayout_spec (oldLayout newLayout : ImageLayout) (mipLevels : Nat) :
    ((∃ b, transitionImageLayout oldLayout newLayout mipLevels = Except.ok b) ↔
      supportedTransitionPair oldLayout newLayout)
    ∧ (transitionImageLayout oldLayout newLayout mipLevels
          = Except.error TransitionError.unsupportedTransition ↔
        ¬ supportedTransitionPair oldLayout newLayout) := by
  cases oldLayout <;> cases newLayout <;>
    simp [transitionImageLayout, transitionAccessMasks, transitionPipelineStages,
      supportedTransitionPair, Except.bind]

/-- Evaluation of `transitionImageLayout_spec` at the concrete recognized
pair (undefined, transfer-destination) with five mip levels. -/
theorem transitionImageLayout_witness :
    ∃ b, transitionImageLayout ImageLayout.undefined ImageLayout.transferDstOptimal 5
      = Except.ok b :=
  (transitionImageLayout_spec ImageLayout.undefined ImageLayout.transferDstOptimal 5).1.mpr
    (Or.inl ⟨rfl, rfl⟩)

/-- C4: when acquisition reports out-of-date, `draw` abandons the frame
atomically: the swapchain is recreated, nothing is recorded, submitted or
presented, the in-flight fence is not reset (so the next wait on it returns
immediately rather than blocking on an unsubmitted frame), and the frame
counter does not advance. -/
theorem draw_outOfDate_spec (currentFrame maxFramesInFlight : Nat) (env : DrawEnv)
    (hacq : env.acquireResult = AcquireResult.outOfDate) :
    draw currentFrame maxFramesInFlight env = Except.ok {
      waitedOnFence := true
      recreatedSwapChain := true
      fenceReset := false
      recordedCommandBuffer := false
      submitted := false
      presented := false
      nextFrame := currentFrame } := by
  simp [draw, hacq]

/-- Evaluation of `draw_outOfDate_spec` on a concrete out-of-date
environment at frame 1 of 2. -/
theorem draw_outOfDate_witness :
    sampleEnvOutOfDate.acquireResult = AcquireResult.outOfDate
    ∧ draw 1 2 sampleEnvOutOfDate = Except.ok {
        waitedOnFence := true
        recreatedSwapChain := true
        fenceReset := false
        recordedCommandBuffer := false
        submitted := false
        presented := false
        nextFrame := 1 } :=
  ⟨rfl, draw_outOfDate_spec 1 2 sampleEnvOutOfDate rfl⟩

/-- Counterexample to C5 as stated: with a suboptimal acquisition, a
successful submit and present, and the resize flag clear, `draw` completes
the frame (records, submits, presents, advances the counter) but does NOT
recreate the swapchain after presentation. -/
theorem draw_suboptimal_counterexample :
    sampleEnvSuboptimal.acquireResult = AcquireResult.suboptimal
    ∧ draw 0 2 sampleEnvSuboptimal = Except.ok {
        waitedOnFence := true
        recreatedSwapChain := false
        fenceReset := true
        recordedCommandBuffer := true
        submitted := true
        presented := true
        nextFrame := 1 } :=
  ⟨rfl, rfl⟩

/-- C5 (amended): when acquisition reports suboptimal and submission
succeeds, the frame proceeds anyway (the command buffer is recorded,
submitted and the image presented, and the frame counter advances); the
swapchain is recreated after presentation exactly when the present call
itself reports out-of-date or suboptimal or the framebuffer-resized flag is
set — a suboptimal acquisition alone does not schedule a recreation. -/
theorem draw_suboptimal_spec (currentFrame maxFramesInFlight : Nat) (env : DrawEnv)
    (hacq : env.acquireResult = AcquireResult.suboptimal)
    (hsub : env.submitSucceeds = true) :
    (env.presentResult = PresentResult.outOfDate ∨ env.presentResult = PresentResult.suboptimal
        ∨ env.framebufferResized = true →
      draw currentFrame maxFramesInFlight env = Except.ok {
        waitedOnFence := true
        recreatedSwapChain := true
        fenceReset := true
        recordedCommandBuffer := true
        submitted := true
        presented := true
        nextFrame := (currentFrame + 1) % maxFramesInFlight })
    ∧ (env.presentResult = PresentResult.success → env.framebufferResized = false →
      draw currentFrame maxFramesInFlight env = Except.ok {
        waitedOnFence := true
        recreatedSwapChain := false
        fenceReset := true
        recordedCommandBuffer := true
        submitted := true
        presented := true
        nextFrame := (currentFrame + 1) % maxFramesInFlight }) := by
  constructor
  · intro hp
    rcases hp with hp | hp | hp <;> simp [draw, hacq, hsub, hp]
  · intro hp hr
    simp [draw, hacq, hsub, hp, hr]

/-- Evaluation of `draw_suboptimal_spec` on a concrete environment where
presentation also reports suboptimal, at frame 0 of 2. -/
theorem draw_suboptimal_witness :
    draw 0 2 { acquireResult := AcquireResult.suboptimal
               submitSucceeds := true
               presentResult := PresentResult.suboptimal
               framebufferResized := false } = Except.ok {
      waitedOnFence := true
      recreatedSwapChain := true
      fenceReset := true
      recordedCommandBuffer := true
      submitted := true
      presented := true
      nextFrame := (0 + 1) % 2 } :=
  (draw_suboptimal_spec 0 2 _ rfl rfl).1 (Or.inr (Or.inl rfl))

/-- C7: when the surface reports the `uint32_t` sentinel as current extent
width, `selectSwapExtent` clamps the framebuffer size componentwise into
the surface's `[minImageExtent, maxImageExtent]` range; otherwise it
returns the surface's current extent verbatim.  Since the choice depends
only on the capabilities and the framebuffer size, repeated recreation at
an unchanged surface size yields this same extent every time. -/
theorem selectSwapExtent_spec (caps : SurfaceCapabilitiesModel) (fbWidth fbHeight : Nat) :
    (caps.currentExtent.width = UINT32_MAX →
      selectSwapExtent caps fbWidth fbHeight = {
        width := cppClamp fbWidth caps.minImageExtent.width caps.maxImageExtent.width
        height := cppClamp fbHeight caps.minImageExtent.height caps.maxImageExtent.height })
    ∧ (caps.currentExtent.width ≠ UINT32_MAX →
      selectSwapExtent caps fbWidth fbHeight = caps.currentExtent) := by
  refine ⟨fun h => ?_, fun h => ?_⟩ <;> simp [selectSwapExtent, h]

/-- Evaluation of `selectSwapExtent_spec` on a sentinel-reporting surface:
a 150 by 250 framebuffer is clamped into [100, 200] squared. -/
theorem selectSwapExtent_witness :
    selectSwapExtent sampleCapsSentinel 150 250 = { width := 150, height := 200 } :=
  ((selectSwapExtent_spec sampleCapsSentinel 150 250).1 rfl).trans (by decide)

/-- C9: `createTextureImage` computes its staging-buffer byte size as
`width * height * (channels + 1)`, and for a load whose reported channel
count is 4 (a forced-RGBA load of a 4-channel file) this strictly exceeds
the `width * height * 4` bytes the RGBA pixel data actually occupies. -/
theorem createTextureImageStagingSize_spec (width height channels : Nat)
    (hw : 1 ≤ width) (hh : 1 ≤ height) :
    createTextureImageStagingSize width height channels = width * height * (channels + 1)
    ∧ (channels = 4 →
        width * height * 4 < createTextureImageStagingSize width height channels) := by
  constructor
  · rfl
  · intro hc
    subst hc
    have hpos : 0 < width * height := Nat.mul_pos hw hh
    show width * height * 4 < width * height * (4 + 1)
    set t := width * height
    omega

/-- Evaluation of `createTextureImageStagingSize_spec` on a 2 by 3 texture
with reported channel count 4: 24 required bytes versus 30 allocated. -/
theorem createTextureImageStagingSize_witness :
    2 * 3 * 4 < createTextureImageStagingSize 2 3 4 :=
  (createTextureImageStagingSize_spec 2 3 4 (by omega) (by omega)).2 rfl

/-- Helper: a successful exit of the poll loop yields a nonzero size, and
it is the first nonzero size polled at or after the start index. -/
theorem framebufferSizeWaitLoop_some (sizes : Nat → Nat × Nat) :
    ∀ (fuel start w h : Nat),
      framebufferSizeWaitLoop sizes fuel start = some (w, h) →
      w ≠ 0 ∧ h ≠ 0 ∧ ∃ k, start ≤ k ∧ sizes k = (w, h) ∧
        ∀ j, start ≤ j → j < k → (sizes j).1 = 0 ∨ (sizes j).2 = 0 := by
  intro fuel
  induction fuel with
  | zero =>
    intro start w h hsome
    simp [framebufferSizeWaitLoop] at hsome
  | succ fuel ih =>
    intro start w h hsome
    by_cases hz : (sizes start).1 = 0 ∨ (sizes start).2 = 0
    · rw [framebufferSizeWaitLoop, if_pos hz] at hsome
      obtain ⟨hw, hh, k, hk1, hk2, hk3⟩ := ih (start + 1) w h hsome
      refine ⟨hw, hh, k, by omega, hk2, ?_⟩
      intro j hj1 hj2
      rcases Nat.eq_or_lt_of_le hj1 with heq | hlt
      · rw [← heq]
        exact hz
      · exact hk3 j (by omega) hj2
    · rw [framebufferSizeWaitLoop, if_neg hz] at hsome
      have hswh : sizes start = (w, h) := by simpa using hsome
      rw [hswh] at hz
      push_neg at hz
      exact ⟨hz.1, hz.2, start, Nat.le_refl start, hswh,
        fun j hj1 hj2 => absurd hj1 (by omega)⟩

/-- Helper: while every poll reports a zero dimension, the loop never
exits. -/
theorem framebufferSizeWaitLoop_blocked (sizes : Nat → Nat × Nat)
    (hall : ∀ k, (sizes k).1 = 0 ∨ (sizes k).2 = 0) :
    ∀ (fuel start : Nat), framebufferSizeWaitLoop sizes fuel start = none := by
  intro fuel
  induction fuel with
  | zero => intro start; rfl
  | succ fuel ih =>
    intro start
    rw [framebufferSizeWaitLoop, if_pos (hall start)]
    exact ih (start + 1)

/-- C8: `recreateSwapChain` never proceeds with a zero extent.  If the poll
loop exits with size `(w, h)` then both dimensions are nonzero and `(w, h)`
is the first polled framebuffer size with both dimensions nonzero (every
earlier poll had a zero dimension, so the loop was blocking and re-polling
until then); and while every poll reports a zero dimension the function
never reaches the destroy-and-rebuild sequence. -/
theorem recreateSwapChain_wait_spec (sizes : Nat → Nat × Nat) (fuel w h : Nat) :
    (recreateSwapChainSize sizes fuel = some (w, h) →
      w ≠ 0 ∧ h ≠ 0 ∧ ∃ k, sizes k = (w, h) ∧
        ∀ j, j < k → (sizes j).1 = 0 ∨ (sizes j).2 = 0)
    ∧ ((∀ k, (sizes k).1 = 0 ∨ (sizes k).2 = 0) →
      recreateSwapChainSize sizes fuel = none) := by
  constructor
  · intro hsome
    obtain ⟨hw, hh, k, _, hk2, hk3⟩ := framebufferSizeWaitLoop_some sizes fuel 0 w h hsome
    exact ⟨hw, hh, k, hk2, fun j hj => hk3 j (Nat.zero_le j) hj⟩
  · intro hall
    exact framebufferSizeWaitLoop_blocked sizes hall fuel 0

/-- Evaluation of `recreateSwapChain_wait_spec` on a trace that is
minimised for two polls and then reports 640 by 480. -/
theorem recreateSwapChain_wait_witness :
    (640 : Nat) ≠ 0 ∧ (480 : Nat) ≠ 0 ∧ ∃ k, sampleSizes k = (640, 480) ∧
      ∀ j, j < k → (sampleSizes j).1 = 0 ∨ (sampleSizes j).2 = 0 :=
  (recreateSwapChain_wait_spec sampleSizes 5 640 480).1 (by decide)

/-- Helper invariant of the frame synchronizer, by induction over
reachability: the frame counter stays below `N`, no slot ever has two
un-retired submissions, and every un-retired slot index is below `N`. -/
theorem reachable_frame_invariant {N : Nat} (hN : 1 ≤ N) {s : FrameState}
    (hs : ReachableFrameState N s) :
    s.current < N ∧ s.inflight.Nodup ∧ ∀ f ∈ s.inflight, f < N := by
  induction hs with
  | init => exact ⟨hN, List.nodup_nil, by simp⟩
  | step h1 h2 ih =>
    obtain ⟨hc, hnd, hb⟩ := ih
    cases h2 with
    | submitFrame h =>
      refine ⟨Nat.mod_lt _ (by omega), List.nodup_cons.mpr ⟨h, hnd⟩, ?_⟩
      intro f hf
      rcases List.mem_cons.mp hf with heq | hf2
      · rw [heq]
        exact hc
      · exact hb f hf2
    | abandonFrame h => exact ⟨hc, hnd, hb⟩
    | retire f h =>
      exact ⟨hc, hnd.erase f, fun g hg => hb g (List.mem_of_mem_erase hg)⟩

/-- C2: with `N ≥ 2` frames in flight, in every reachable state of the
frame synchronizer the un-retired submissions are on pairwise distinct
frame slots (a slot's command buffer is never resubmitted before its fence
wait retires it, because `FrameStep.submitFrame` is only enabled with the
slot retired) and hence at most `N` command buffers are un-retired at any
instant. -/
theorem framesInFlight_bound (N : Nat) (s : FrameState) (hN : 2 ≤ N)
    (hs : ReachableFrameState N s) :
    s.inflight.Nodup ∧ s.inflight.length ≤ N := by
  obtain ⟨-, hnd, hb⟩ := reachable_frame_invariant (by omega) hs
  refine ⟨hnd, ?_⟩
  have hcard : s.inflight.toFinset.card = s.inflight.length :=
    List.toFinset_card_of_nodup hnd
  have hsub : s.inflight.toFinset ⊆ Finset.range N := by
    intro x hx
    exact Finset.mem_range.mpr (hb x (List.mem_toFinset.mp hx))
  have hle := Finset.card_le_card hsub
  rw [hcard, Finset.card_range] at hle
  exact hle

/-- Evaluation of `framesInFlight_bound` at `N = 2` in the initial state
(all fences created signaled, nothing in flight). -/
theorem framesInFlight_bound_witness :
    ({ current := 0, inflight := [] } : FrameState).inflight.Nodup
    ∧ ({ current := 0, inflight := [] } : FrameState).inflight.length ≤ 2 :=
  framesInFlight_bound 2 { current := 0, inflight := [] } (by omega)
    ReachableFrameState.init

/-- Helper: `halve` never maps a positive number to zero. -/
theorem halve_pos {x : Nat} (hx : 1 ≤ x) : 1 ≤ halve x := by
  unfold halve
  split <;> omega

/-- Helper: `halveIter` fixes zero. -/
theorem halveIter_zero (k : Nat) : halveIter k 0 = 0 := by
  induction k with
  | zero => rfl
  | succ k ih => rw [halveIter, show halve 0 = 0 from rfl]; exact ih

/-- Helper: for a positive start value, iterated clamped halving computes
`max 1 (x / 2 ^ k)`. -/
theorem halveIter_eq_max (k : Nat) : ∀ x : Nat, 1 ≤ x → halveIter k x = max 1 (x / 2 ^ k) := by
  induction k with
  | zero =>
    intro x hx
    rw [halveIter, Nat.pow_zero, Nat.div_one, max_eq_right hx]
  | succ k ih =>
    intro x hx
    rw [halveIter, ih (halve x) (halve_pos hx)]
    unfold halve
    split
    · have h2k : (2 : Nat) * 2 ^ k = 2 ^ (k + 1) := by
        rw [Nat.pow_succ, Nat.mul_comm]
      rw [Nat.div_div_eq_div_mul, h2k]
    · have hx1 : x = 1 := by omega
      subst hx1
      have h1 : (1 : Nat) / 2 ^ k ≤ 1 := Nat.div_le_self 1 _
      have h2 : (1 : Nat) / 2 ^ (k + 1) ≤ 1 := Nat.div_le_self 1 _
      rw [max_eq_left h1, max_eq_left h2]

/-- C10: `createTextureImage` always requests a full mip chain: the level
count is exactly `floor(log2(max(width, height))) + 1`, computed internally
with no caller-facing parameter to choose a shorter chain, and after the
corresponding number of halving steps the larger source dimension has
reached extent 1. -/
theorem mipLevelsForTexture_spec (width height : Nat) (hw : 1 ≤ width) (hh : 1 ≤ height) :
    mipLevelsForTexture width height = Nat.log2 (max width height) + 1
    ∧ halveIter (mipLevelsForTexture width height - 1) (max width height) = 1 := by
  refine ⟨rfl, ?_⟩
  have hm : 1 ≤ max width height := le_trans hw (le_max_left _ _)
  have hlog : 2 ^ Nat.log2 (max width height) ≤ max width height :=
    Nat.log2_self_le (by omega)
  have hlt : max width height < 2 ^ (Nat.log2 (max width height) + 1) :=
    Nat.lt_log2_self
  have hred : mipLevelsForTexture width height - 1 = Nat.log2 (max width height) := rfl
  rw [hred, halveIter_eq_max _ _ hm]
  have hq : max width height / 2 ^ Nat.log2 (max width height) = 1 := by
    apply Nat.div_eq_of_lt_le
    · rw [Nat.one_mul]
      exact hlog
    · rw [Nat.pow_succ] at hlt
      omega
  rw [hq]
  exact max_self 1

/-- Evaluation of `mipLevelsForTexture_spec` on a 4 by 3 texture: 3 mip
levels, with the larger dimension reaching 1 at the last level. -/
theorem mipLevelsForTexture_witness :
    mipLevelsForTexture 4 3 = Nat.log2 (max 4 3) + 1
    ∧ halveIter (mipLevelsForTexture 4 3 - 1) (max 4 3) = 1 :=
  mipLevelsForTexture_spec 4 3 (by omega) (by omega)

/-- Helper: a successful scan returns an index at or after the start
index, within the list, matching, and with no earlier match at or after
the start index. -/
theorem findMemoryTypeAux_ok_props (typeFilter properties : Nat) :
    ∀ (l : List Nat) (start i : Nat),
      findMemoryTypeAux typeFilter properties l start = Except.ok i →
      start ≤ i ∧ i - start < l.length
        ∧ memTypeMatch typeFilter properties (l.getD (i - start) 0) i
        ∧ ∀ j, start ≤ j → j < i →
            ¬ memTypeMatch typeFilter properties (l.getD (j - start) 0) j := by
  intro l
  induction l with
  | nil =>
    intro start i hok
    simp [findMemoryTypeAux] at hok
  | cons flags rest ih =>
    intro start i hok
    rw [findMemoryTypeAux] at hok
    by_cases hm : memTypeMatch typeFilter properties flags start
    · rw [if_pos hm] at hok
      have hi : start = i := by
        injection hok
      subst hi
      refine ⟨Nat.le_refl _, by simp, ?_, ?_⟩
      · simpa [Nat.sub_self] using hm
      · intro j hj1 hj2
        omega
    · rw [if_neg hm] at hok
      obtain ⟨h1, h2, h3, h4⟩ := ih (start + 1) i hok
      have hgt : start + 1 ≤ i := h1
      refine ⟨by omega, by simp only [List.length_cons]; omega, ?_, ?_⟩
      · rw [show i - start = i - (start + 1) + 1 from by omega, List.getD_cons_succ]
        exact h3
      · intro j hj1 hj2
        by_cases hj : j = start
        · subst hj
          simpa [Nat.sub_self] using hm
        · rw [show j - start = j - (start + 1) + 1 from by omega, List.getD_cons_succ]
          exact h4 j (by omega) hj2

/-- Helper: the scan throws exactly when no index in range matches. -/
theorem findMemoryTypeAux_error_iff (typeFilter properties : Nat) :
    ∀ (l : List Nat) (start : Nat),
      findMemoryTypeAux typeFilter properties l start
          = Except.error MemoryError.noSuitableMemoryType ↔
        ∀ k, k < l.length → ¬ memTypeMatch typeFilter properties (l.getD k 0) (start + k) := by
  intro l
  induction l with
  | nil =>
    intro start
    simp [findMemoryTypeAux]
  | cons flags rest ih =>
    intro start
    rw [findMemoryTypeAux]
    by_cases hm : memTypeMatch typeFilter properties flags start
    · rw [if_pos hm]
      constructor
      · intro hcontra
        exact absurd hcontra (by simp)
      · intro hall
        have h0 := hall 0 (by simp)
        simp only [List.getD_cons_zero, Nat.add_zero] at h0
        exact absurd hm h0
    · rw [if_neg hm]
      rw [ih (start + 1)]
      constructor
      · intro h k hk
        cases k with
        | zero =>
          simpa [Nat.add_zero] using hm
        | succ k2 =>
          have hk2 : k2 < rest.length := by
            simp only [List.length_cons] at hk
            omega
          have := h k2 hk2
          rw [List.getD_cons_succ, show start + (k2 + 1) = start + 1 + k2 from by omega]
          exact this
      · intro h k hk
        have := h (k + 1) (by simp only [List.length_cons]; omega)
        rw [List.getD_cons_succ, show start + (k + 1) = start + 1 + k from by omega] at this
        exact this

/-- C6: `findMemoryType` is a deterministic linear scan: it returns
`Except.ok i` exactly when `i` is in range, bit `i` of the type filter is
set with memory type `i`'s property flags a superset of the requested
properties, and no smaller index satisfies both; it throws exactly when no
index satisfies both, with no fallback or relaxation.  Being a pure
function of the memory-type list, the filter and the properties, the same
inputs always yield the same result. -/
theorem findMemoryType_spec (memoryTypes : List Nat) (typeFilter properties : Nat) (i : Nat) :
    (findMemoryType memoryTypes typeFilter properties = Except.ok i ↔
      (i < memoryTypes.length
        ∧ memTypeMatch typeFilter properties (memoryTypes.getD i 0) i
        ∧ ∀ j, j < i → ¬ memTypeMatch typeFilter properties (memoryTypes.getD j 0) j))
    ∧ (findMemoryType memoryTypes typeFilter properties
          = Except.error MemoryError.noSuitableMemoryType ↔
        ∀ j, j < memoryTypes.length →
          ¬ memTypeMatch typeFilter properties (memoryTypes.getD j 0) j) := by
  have herr := findMemoryTypeAux_error_iff typeFilter properties memoryTypes 0
  simp only [Nat.zero_add] at herr
  constructor
  · constructor
    · intro hok
      obtain ⟨h1, h2, h3, h4⟩ :=
        findMemoryTypeAux_ok_props typeFilter properties memoryTypes 0 i hok
      simp only [Nat.sub_zero] at h2 h3
      refine ⟨h2, h3, fun j hj => ?_⟩
      have := h4 j (Nat.zero_le j) hj
      simpa [Nat.sub_zero] using this
    · rintro ⟨h1, h2, h3⟩
      cases hres : findMemoryType memoryTypes typeFilter properties with
      | ok i2 =>
        obtain ⟨g1, g2, g3, g4⟩ :=
          findMemoryTypeAux_ok_props typeFilter properties memoryTypes 0 i2 hres
        simp only [Nat.sub_zero] at g2 g3
        rcases Nat.lt_trichotomy i i2 with hlt | heq | hgt
        · have := g4 i (Nat.zero_le i) hlt
          simp only [Nat.sub_zero] at this
          exact absurd h2 this
        · rw [heq]
        · exact absurd g3 (h3 i2 hgt)
      | error e =>
        cases e
        have := herr.mp hres
        exact absurd h2 (this i h1)
  · exact herr

/-- Evaluation of `findMemoryType_spec`: with memory types carrying flags
1, 6, 3, filter bitmask 6 and requested properties 2, index 0 is excluded
by the filter and index 1 is the first match. -/
theorem findMemoryType_witness :
    findMemoryType [1, 6, 3] 6 2 = Except.ok 1 :=
  ((findMemoryType_spec [1, 6, 3] 6 2 1).1).mpr (by decide)

/-- Helper: unfolding one command of a layout application. -/
theorem applyCommands_cons (c : MipCommand) (cmds : List MipCommand) (L : Nat → ImageLayout) :
    applyCommands (c :: cmds) L = applyCommands cmds (applyCommand L c) := rfl

/-- Helper: layout application distributes over command-list append. -/
theorem applyCommands_append (l1 l2 : List MipCommand) (L : Nat → ImageLayout) :
    applyCommands (l1 ++ l2) L = applyCommands l2 (applyCommands l1 L) := by
  simp [applyCommands, List.foldl_append]

/-- Helper: the blit loop starting at level `i` with `r` iterations sets
levels `i - 1 .. i - 1 + r - 1` to shader-read-only layout and leaves every
other level unchanged. -/
theorem generateMipmapsLoop_layouts :
    ∀ (r i w h : Nat) (L : Nat → ImageLayout) (j : Nat), 1 ≤ i →
      applyCommands (generateMipmapsLoop i r w h) L j
        = if i - 1 ≤ j ∧ j < i - 1 + r then ImageLayout.shaderReadOnlyOptimal else L j := by
  intro r
  induction r with
  | zero =>
    intro i w h L j hi
    rw [if_neg (by omega)]
    rfl
  | succ r ih =>
    intro i w h L j hi
    show applyCommands (generateMipmapsLoop (i + 1) r (halve w) (halve h))
        (applyCommand (applyCommand (applyCommand L
          (MipCommand.barrier (i - 1) ImageLayout.transferDstOptimal
            ImageLayout.transferSrcOptimal))
          (MipCommand.blit (i - 1) (w, h) i
            (if 1 < w then w / 2 else 1, if 1 < h then h / 2 else 1)))
          (MipCommand.barrier (i - 1) ImageLayout.transferSrcOptimal
            ImageLayout.shaderReadOnlyOptimal)) j = _
    rw [ih (i + 1) (halve w) (halve h) _ j (by omega)]
    simp only [applyCommand]
    by_cases hj : j = i - 1
    · rw [if_pos hj]
      by_cases hcov : (i + 1) - 1 ≤ j ∧ j < (i + 1) - 1 + r
      · rw [if_pos hcov, if_pos (by omega)]
      · rw [if_neg hcov, if_pos (by omega)]
    · rw [if_neg hj, if_neg hj]
      by_cases hcov : (i + 1) - 1 ≤ j ∧ j < (i + 1) - 1 + r
      · rw [if_pos hcov, if_pos (by omega)]
      · rw [if_neg hcov, if_neg (by omega)]

/-- Helper: every blit emitted by the loop goes from level `d - 1` into
level `d` for some `d` in the iteration range, reading the extent obtained
by `d - i` clamped halvings of the loop's starting extent and writing its
conditional half. -/
theorem generateMipmapsLoop_blit_shape :
    ∀ (r i w h s d : Nat) (se de : Nat × Nat),
      MipCommand.blit s se d de ∈ generateMipmapsLoop i r w h →
      s = d - 1 ∧ i ≤ d ∧ d < i + r
        ∧ se = (halveIter (d - i) w, halveIter (d - i) h)
        ∧ de = (if 1 < halveIter (d - i) w then halveIter (d - i) w / 2 else 1,
                if 1 < halveIter (d - i) h then halveIter (d - i) h / 2 else 1) := by
  intro r
  induction r with
  | zero =>
    intro i w h s d se de hmem
    simp [generateMipmapsLoop] at hmem
  | succ r ih =>
    intro i w h s d se de hmem
    simp only [generateMipmapsLoop, List.mem_cons] at hmem
    rcases hmem with h1 | h2 | h3 | h4
    · exact absurd h1 (by simp)
    · simp only [MipCommand.blit.injEq] at h2
      obtain ⟨hs, hse, hd, hde⟩ := h2
      subst hd
      subst hs
      refine ⟨rfl, Nat.le_refl _, by omega, ?_, ?_⟩
      · rw [hse, Nat.sub_self]
        rfl
      · rw [hde, Nat.sub_self]
        rfl
    · exact absurd h3 (by simp)
    · obtain ⟨hs, hd1, hd2, hse, hde⟩ := ih (i + 1) (halve w) (halve h) s d se de h4
      refine ⟨hs, by omega, by omega, ?_, ?_⟩
      · rw [show d - i = d - (i + 1) + 1 from by omega]
        exact hse
      · rw [show d - i = d - (i + 1) + 1 from by omega]
        exact hde

/-- Helper: conversely, the loop does emit a blit into every level of its
iteration range, with exactly those extents. -/
theorem generateMipmapsLoop_blit_mem :
    ∀ (r i w h d : Nat), i ≤ d → d < i + r →
      MipCommand.blit (d - 1) (halveIter (d - i) w, halveIter (d - i) h) d
          (if 1 < halveIter (d - i) w then halveIter (d - i) w / 2 else 1,
           if 1 < halveIter (d - i) h then halveIter (d - i) h / 2 else 1)
        ∈ generateMipmapsLoop i r w h := by
  intro r
  induction r with
  | zero =>
    intro i w h d h1 h2
    omega
  | succ r ih =>
    intro i w h d h1 h2
    simp only [generateMipmapsLoop, List.mem_cons]
    by_cases hd : d = i
    · subst hd
      refine Or.inr (Or.inl ?_)
      rw [Nat.sub_self]
      rfl
    · have hmem := ih (i + 1) (halve w) (halve h) d (by omega) (by omega)
      refine Or.inr (Or.inr (Or.inr ?_))
      rw [show d - i = d - (i + 1) + 1 from by omega]
      exact hmem

/-- Helper: the conditional halving of the current mip extent computes the
floored-but-clamped next level extent `max 1 (x / 2 ^ (k + 1))`. -/
theorem halveIter_next_extent (k x : Nat) :
    (if 1 < halveIter k x then halveIter k x / 2 else 1) = max 1 (x / 2 ^ (k + 1)) := by
  by_cases hx : 1 ≤ x
  · rw [halveIter_eq_max k x hx]
    have hdiv : x / 2 ^ (k + 1) = x / 2 ^ k / 2 := by
      rw [Nat.div_div_eq_div_mul, Nat.pow_succ]
    by_cases h2 : 2 ≤ x / 2 ^ k
    · rw [max_eq_right (by omega), if_pos (by omega), hdiv]
      have hone : 1 ≤ x / 2 ^ k / 2 := by omega
      rw [max_eq_right hone]
    · rw [max_eq_left (by omega), if_neg (by omega), hdiv]
      rw [max_eq_left (by omega)]
  · have hx0 : x = 0 := by omega
    subst hx0
    rw [halveIter_zero, if_neg (by omega), Nat.zero_div]
    rw [max_eq_left (by omega)]

/-- C1: for every requested mip count `m ≥ 1`, starting from all levels in
transfer-destination layout (the state `createTextureImage` establishes
before calling `generateMipmaps`, main.cpp lines 834-840), the command
trace of `generateMipmaps` leaves every mip level `0 .. m - 1` in
shader-read-only layout; every blit writes level `d` (for `1 ≤ d < m`)
with destination extent exactly `max 1 (w / 2 ^ d)` by `max 1 (h / 2 ^ d)`
— halving floors but never drops below 1 in either dimension — and every
such level does receive its blit; and for `m = 1` the trace is the single
direct transfer-destination-to-shader-read-only barrier on level 0 with no
blit at all. -/
theorem generateMipmaps_spec (texWidth texHeight mipLevels : Nat) (hm : 1 ≤ mipLevels) :
    (∀ j, j < mipLevels →
      applyCommands (generateMipmaps texWidth texHeight mipLevels)
        (fun _ => ImageLayout.transferDstOptimal) j = ImageLayout.shaderReadOnlyOptimal)
    ∧ (∀ s d : Nat, ∀ se de : Nat × Nat,
        MipCommand.blit s se d de ∈ generateMipmaps texWidth texHeight mipLevels →
        s = d - 1 ∧ 1 ≤ d ∧ d < mipLevels
          ∧ de = (max 1 (texWidth / 2 ^ d), max 1 (texHeight / 2 ^ d)))
    ∧ (∀ d, 1 ≤ d → d < mipLevels →
        ∃ se, MipCommand.blit (d - 1) se d
            (max 1 (texWidth / 2 ^ d), max 1 (texHeight / 2 ^ d))
          ∈ generateMipmaps texWidth texHeight mipLevels)
    ∧ (mipLevels = 1 → generateMipmaps texWidth texHeight mipLevels
        = [MipCommand.barrier 0 ImageLayout.transferDstOptimal
             ImageLayout.shaderReadOnlyOptimal]) := by
  refine ⟨?_, ?_, ?_, ?_⟩
  · intro j hj
    unfold generateMipmaps
    rw [applyCommands_append]
    show (if j = mipLevels - 1 then ImageLayout.shaderReadOnlyOptimal
        else applyCommands (generateMipmapsLoop 1 (mipLevels - 1) texWidth texHeight)
          (fun _ => ImageLayout.transferDstOptimal) j) = ImageLayout.shaderReadOnlyOptimal
    by_cases hj2 : j = mipLevels - 1
    · rw [if_pos hj2]
    · rw [if_neg hj2]
      rw [generateMipmapsLoop_layouts (mipLevels - 1) 1 texWidth texHeight _ j (by omega)]
      rw [if_pos (by omega)]
  · intro s d se de hmem
    unfold generateMipmaps at hmem
    rw [List.mem_append] at hmem
    rcases hmem with hmem | hmem
    · obtain ⟨hs, hd1, hd2, hse, hde⟩ :=
        generateMipmapsLoop_blit_shape (mipLevels - 1) 1 texWidth texHeight s d se de hmem
      refine ⟨hs, hd1, by omega, ?_⟩
      rw [hde, halveIter_next_extent, halveIter_next_extent,
        show d - 1 + 1 = d from by omega]
    · exact absurd hmem (by simp)
  · intro d hd1 hd2
    refine ⟨(halveIter (d - 1) texWidth, halveIter (d - 1) texHeight), ?_⟩
    unfold generateMipmaps
    rw [List.mem_append]
    left
    have hmem := generateMipmapsLoop_blit_mem (mipLevels - 1) 1 texWidth texHeight d hd1
      (by omega)
    rw [halveIter_next_extent, halveIter_next_extent,
      show d - 1 + 1 = d from by omega] at hmem
    exact hmem
  · intro h1
    subst h1
    rfl

/-- Evaluation of `generateMipmaps_spec` at the 1 by 1, one-level scenario:
the trace is the single direct transition of level 0 to shader-read-only,
with zero blit iterations. -/
theorem generateMipmaps_witness :
    generateMipmaps 1 1 1
      = [MipCommand.barrier 0 ImageLayout.transferDstOptimal
           ImageLayout.shaderReadOnlyOptimal] :=
  (generateMipmaps_spec 1 1 1 (by omega)).2.2.2 rfl
